import Mathlib

/-
Verification development for the text-to-image provider orchestration core:
provider model and retry policy (src/providers/base.py), the manager with
selection, fallback and usage tracking (src/providers/manager.py), and the
natural-language message extractor (src/utils/message_parser.py).

Python strings are modelled as Lean strings (lists of characters), Python
ints as Nat or Int, floats as rationals, dictionaries with object values as
functions or association lists, and None via Option. Asynchronous calls are
modelled by behaviour oracles supplied as arguments; logging calls carry no
state and are omitted.
-/

namespace Txsc

set_option maxRecDepth 10000

/-- From src/providers/base.py, class ResponseType. -/
inductive ResponseType where
  | url
  | base64
  | file_path
deriving DecidableEq, Repr

/-- Payload of a GenerationResult: Union[str, List[str]] in the source. -/
inductive ImagePayload where
  | one (s : String)
  | many (l : List String)
deriving DecidableEq, Repr

/-- From src/providers/base.py, dataclass ImageSize. -/
structure ImageSize where
  width : Nat
  height : Nat
deriving DecidableEq, Repr

/-- From src/providers/base.py, dataclass GenerationResult.
The metadata dict is modelled as an optional association list. -/
structure GenerationResult where
  success : Bool
  data : Option ImagePayload := none
  error_message : Option String := none
  response_type : ResponseType := ResponseType.url
  metadata : Option (List (String × String)) := none
deriving DecidableEq, Repr

/-- GenerationResult.is_success: success AND data is not None. -/
def GenerationResult.is_success (r : GenerationResult) : Bool :=
  r.success && r.data.isSome

/-- From src/providers/base.py, dataclass GenerationParams. -/
structure GenerationParams where
  prompt : String
  negative_prompt : Option String := none
  size : Option ImageSize := none
  style : Option String := none
  quality : Option String := none
  num_images : Int := 1
  seed : Option Int := none
  guidance_scale : Option ℚ := none
  steps : Option Nat := none
  response_format : ResponseType := ResponseType.url
deriving DecidableEq, Repr

/-- From src/providers/base.py, dataclass ProviderConfig (extra_params is an
opaque dict defaulting to empty and is modelled as an association list). -/
structure ProviderConfig where
  name : String
  enabled : Bool := true
  api_key : Option String := none
  api_secret : Option String := none
  base_url : Option String := none
  model : Option String := none
  timeout : Nat := 60
  max_retries : Nat := 3
  retry_delay : ℚ := 1
  extra_params : List (String × String) := []
deriving DecidableEq, Repr

/-- From src/providers/base.py, class ProviderCapabilities (constructor
fields; the list-or-None defaults are already normalised to lists). -/
structure ProviderCapabilities where
  supported_sizes : List ImageSize
  supported_styles : List String := []
  supported_qualities : List String := []
  max_images_per_request : Int := 1
  supports_negative_prompt : Bool := true
  supports_seed : Bool := true
  supports_guidance_scale : Bool := false
  supports_steps : Bool := false
  async_generation : Bool := false
  estimated_time_seconds : Nat := 30
deriving DecidableEq, Repr

/-- BaseImageProvider.preprocess_params: fill a missing size with the first
supported size, clamp num_images down to max_images_per_request. -/
def preprocess_params (cap : ProviderCapabilities) (params : GenerationParams) :
    GenerationParams :=
  let p1 := if params.size.isNone && !(cap.supported_sizes.isEmpty) then
      { params with size := cap.supported_sizes.head? }
    else params
  if p1.num_images > cap.max_images_per_request then
    { p1 with num_images := cap.max_images_per_request }
  else p1

/-- One adapter invocation as seen by the retry loop: the coroutine either
returns a GenerationResult or raises an exception carrying a message. -/
inductive AttemptBehavior where
  | returns (r : GenerationResult)
  | raises (msg : String)
deriving DecidableEq, Repr

/-- Python f-string rendering of an Optional[str] value. -/
def optStr : Option String → String
  | none => "None"
  | some s => s

/-- The error string recorded in last_error by one failed attempt. -/
def attemptErrStr : AttemptBehavior → String
  | AttemptBehavior.returns r => optStr r.error_message
  | AttemptBehavior.raises m => m

/-- Whether one attempt counts as a failure for the retry loop:
the adapter raised, or returned a result whose is_success is false. -/
def attemptFails : AttemptBehavior → Bool
  | AttemptBehavior.returns r => !r.is_success
  | AttemptBehavior.raises _ => true

/-- The exhaustion failure message of generate_with_retry. -/
def retryFailMsg (maxR : Nat) (lastErr : String) : String :=
  "重试" ++ toString maxR ++ "次后仍然失败: " ++ lastErr

/-- Aggregate outcome of BaseImageProvider.generate_with_retry: the returned
result, the number of generate_image invocations made, and the sleep
durations performed between attempts, in order. -/
structure RetryOutcome where
  result : GenerationResult
  attempts : Nat
  sleeps : List ℚ
deriving DecidableEq, Repr

/-- Body of the for-loop of generate_with_retry. a is the 0-based attempt
index about to run, rem the number of loop iterations left (the wrapper
keeps a + rem = maxR), lastErr the current last_error rendered as in the
final f-string. beh gives the behaviour of generate_image per attempt. -/
def retryGo (maxR : Nat) (delay : ℚ) (beh : Nat → AttemptBehavior) :
    Nat → Nat → String → RetryOutcome
  | a, 0, lastErr =>
      ⟨{ success := false, error_message := some (retryFailMsg maxR lastErr) }, a, []⟩
  | a, rem + 1, _ =>
      match beh a with
      | AttemptBehavior.returns r =>
          if r.is_success then ⟨r, a + 1, []⟩
          else
            let rest := retryGo maxR delay beh (a + 1) rem (optStr r.error_message)
            if a + 1 < maxR then
              ⟨rest.result, rest.attempts, delay * ((a : ℚ) + 1) :: rest.sleeps⟩
            else rest
      | AttemptBehavior.raises m =>
          let rest := retryGo maxR delay beh (a + 1) rem m
          if a + 1 < maxR then
            ⟨rest.result, rest.attempts, delay * ((a : ℚ) + 1) :: rest.sleeps⟩
          else rest

/-- BaseImageProvider.generate_with_retry over the configured retry budget.
last_error starts as None, rendered "None" by the final f-string. -/
def generate_with_retry (cfg : ProviderConfig) (beh : Nat → AttemptBehavior) :
    RetryOutcome :=
  retryGo cfg.max_retries cfg.retry_delay beh 0 cfg.max_retries "None"

/-
Manager model, from src/providers/manager.py. A registered provider is
represented by its dictionary key (provider.name) together with its
config.enabled flag; the manager consults nothing else of the provider
object besides its generate_with_retry call, which is supplied to
generate_image as a behaviour oracle (name to result-or-exception).
-/

/-- One per-provider entry of ProviderManager.provider_stats. -/
structure ProviderStats where
  total_requests : Nat
  successful_requests : Nat
  failed_requests : Nat
  avg_response_time : ℚ
  last_used : Option ℚ
  health_status : String
deriving DecidableEq, Repr

/-- The statistics dictionary entry created by register_provider. -/
def initStats : ProviderStats :=
  ⟨0, 0, 0, 0, none, "unknown"⟩

/-- Mutable state of a ProviderManager. providers lists the dictionary keys
in insertion order; providerEnabled gives each provider object's
config.enabled flag; provider_stats maps a name to its statistics entry. -/
structure ManagerState where
  providers : List String
  providerEnabled : String → Bool
  enabled_providers : List String
  load_balance_strategy : String
  current_provider_index : Nat
  provider_stats : String → ProviderStats
  fallback_enabled : Bool

/-- Consistency maintained by register/enable/disable: a name is in
enabled_providers exactly when it is a registered provider whose
config.enabled flag is set. Stated with bounded quantifiers so it is
decidable on concrete states. -/
def WFState (st : ManagerState) : Prop :=
  (∀ n ∈ st.enabled_providers, n ∈ st.providers ∧ st.providerEnabled n = true) ∧
  (∀ n ∈ st.providers, st.providerEnabled n = true → n ∈ st.enabled_providers)

instance (st : ManagerState) : Decidable (WFState st) :=
  inferInstanceAs (Decidable (_ ∧ _))

/-- Python min(xs, key=f) on a nonempty list: the first element attaining
the minimal key, found by a left fold keeping the current best. -/
def pickMin (f : String → ℚ) : String → List String → String
  | best, [] => best
  | best, x :: rest => pickMin f (if f x < f best then x else best) rest

/-- ProviderManager._select_provider. rand models the draw made by
random.choice under the random strategy (index rand modulo the candidate
count); all other strategies ignore it. Returns the selected name and the
updated state (the round-robin cursor may move). -/
def selectProvider (st : ManagerState) (rand : Nat) (exclude : List String) :
    Option String × ManagerState :=
  let available := st.enabled_providers.filter
    (fun n => !(exclude.contains n) && st.providers.contains n)
  match available with
  | [] => (none, st)
  | x :: xs =>
    if st.load_balance_strategy = "round_robin" then
      let idx0 := if st.current_provider_index ≥ (x :: xs).length then 0
        else st.current_provider_index
      (some ((x :: xs).getD idx0 ""), { st with current_provider_index := idx0 + 1 })
    else if st.load_balance_strategy = "random" then
      (some ((x :: xs).getD (rand % (x :: xs).length) ""), st)
    else if st.load_balance_strategy = "priority" then
      (some x, st)
    else if st.load_balance_strategy = "fastest" then
      (some (pickMin (fun n => (st.provider_stats n).avg_response_time) x xs), st)
    else if st.load_balance_strategy = "cheapest" then
      (some x, st)
    else
      (some x, st)

/-- The GenerationResult produced by one pass through
_generate_with_provider for a given adapter behaviour: the adapter's own
result, or the normalised failure built from a raised exception. -/
def attemptResultOf (beh : String → AttemptBehavior) (name : String) :
    GenerationResult :=
  match beh name with
  | AttemptBehavior.returns r => r
  | AttemptBehavior.raises m =>
      { success := false, error_message := some ("Provider " ++ name ++ " 异常: " ++ m) }

/-- ProviderManager._generate_with_provider: invoke the adapter (through
its retry wrapper, absorbed into beh), then update the usage statistics.
rt is the measured response time (end - start), endT the wall-clock end
time stored into last_used. On an exception the average is not updated. -/
def genWithProvider (beh : String → AttemptBehavior) (rt endT : String → ℚ)
    (st : ManagerState) (name : String) : GenerationResult × ManagerState :=
  let s := st.provider_stats name
  match beh name with
  | AttemptBehavior.returns r =>
      let s1 := { s with total_requests := s.total_requests + 1,
                         last_used := some (endT name) }
      let s2 := if r.is_success then
          { s1 with successful_requests := s1.successful_requests + 1,
                    health_status := "healthy" }
        else
          { s1 with failed_requests := s1.failed_requests + 1,
                    health_status := "unhealthy" }
      let s3 := if s2.total_requests > 0 then
          { s2 with avg_response_time :=
              (s2.avg_response_time * ((s2.total_requests : ℚ) - 1) + rt name)
                / (s2.total_requests : ℚ) }
        else s2
      (r, { st with provider_stats := fun n => if n = name then s3 else st.provider_stats n })
  | AttemptBehavior.raises m =>
      let s1 := { s with total_requests := s.total_requests + 1,
                         failed_requests := s.failed_requests + 1,
                         health_status := "error",
                         last_used := some (endT name) }
      ({ success := false, error_message := some ("Provider " ++ name ++ " 异常: " ++ m) },
       { st with provider_stats := fun n => if n = name then s1 else st.provider_stats n })

/-- Which return statement of generate_image produced the outcome. -/
inductive OutcomeTag where
  | success
  | noFallbackFail
  | noProvider
  | exhausted
  | explicitDone
  | notFound
  | disabledProv
deriving DecidableEq, Repr

/-- Outcome of generate_image: the returned result, the final manager
state, the names of the adapters actually invoked (in order), and the
branch that terminated the call. -/
structure GenOutcome where
  result : GenerationResult
  state : ManagerState
  attempted : List String
  tag : OutcomeTag

/-- Failure returned when _select_provider yields no candidate. -/
def noProviderResult : GenerationResult :=
  { success := false, error_message := some "没有可用的Provider" }

/-- Failure returned for an explicitly requested unknown provider. -/
def notFoundResult (name : String) : GenerationResult :=
  { success := false, error_message := some ("Provider '" ++ name ++ "' 不存在") }

/-- Failure returned for an explicitly requested disabled provider. -/
def disabledResult (name : String) : GenerationResult :=
  { success := false, error_message := some ("Provider '" ++ name ++ "' 已禁用") }

/-- Failure returned by the in-loop exhaustion check, wrapping the error
message of the just-failed attempt. -/
def exhaustedResult (r : GenerationResult) : GenerationResult :=
  { success := false,
    error_message := some ("所有Provider都生成失败，最后错误: " ++ optStr r.error_message) }

/-- The while-True selection loop of generate_image, with explicit fuel
(none means the fuel ran out; the loop in the source has no such exit).
k numbers the iterations so the random strategy can draw fresh values. -/
def genLoop (beh : String → AttemptBehavior) (rt endT : String → ℚ)
    (rand : Nat → Nat) (useFallback : Bool) :
    Nat → ManagerState → List String → List String → Nat → Option GenOutcome
  | 0, _, _, _, _ => none
  | fuel + 1, st, excluded, attempted, k =>
      match selectProvider st (rand k) excluded with
      | (none, st') => some ⟨noProviderResult, st', attempted, OutcomeTag.noProvider⟩
      | (some name, st') =>
          let (r, st'') := genWithProvider beh rt endT st' name
          if r.is_success then
            some ⟨r, st'', attempted ++ [name], OutcomeTag.success⟩
          else if !useFallback then
            some ⟨r, st'', attempted ++ [name], OutcomeTag.noFallbackFail⟩
          else
            let excluded' := excluded ++ [name]
            if excluded'.length ≥ st''.enabled_providers.length then
              some ⟨exhaustedResult r, st'', attempted ++ [name], OutcomeTag.exhausted⟩
            else
              genLoop beh rt endT rand useFallback fuel st'' excluded' (attempted ++ [name]) (k + 1)

/-- ProviderManager.generate_image. The fuel given to the selection loop is
one more than the enabled-provider count; the theorems below show this is
never exhausted. -/
def generate_image (beh : String → AttemptBehavior) (rt endT : String → ℚ)
    (rand : Nat → Nat) (st : ManagerState) (_params : GenerationParams)
    (provider_name : Option String) (use_fallback : Option Bool) :
    Option GenOutcome :=
  let useFallback := use_fallback.getD st.fallback_enabled
  let fuel := st.enabled_providers.length + 1
  match provider_name with
  | some name =>
      if st.providers.contains name && st.providerEnabled name then
        let (r, st') := genWithProvider beh rt endT st name
        if r.is_success || !useFallback then
          some ⟨r, st', [name], OutcomeTag.explicitDone⟩
        else
          genLoop beh rt endT rand useFallback fuel st' [name] [name] 0
      else if !(st.providers.contains name) then
        some ⟨notFoundResult name, st, [], OutcomeTag.notFound⟩
      else
        some ⟨disabledResult name, st, [], OutcomeTag.disabledProv⟩
  | none => genLoop beh rt endT rand useFallback fuel st [] [] 0

/-
Message extractor model, from src/utils/message_parser.py. Each regular
expression of the source is realised by a dedicated matcher on character
lists; re.search, re.findall and re.sub are realised by generic scanning
drivers over those matchers. Every matcher consumes at least one character
on a match, and the drivers carry fuel bounded by the string length.
-/

/-- Python regex \s (the ASCII whitespace characters). -/
def isWsChar (c : Char) : Bool :=
  c == ' ' || c == '\t' || c == '\n' || c == '\r' || c == '\x0b' || c == '\x0c'

/-- Character comparison, optionally case-insensitive as under re.IGNORECASE
(ASCII folding; characters outside ASCII fold to themselves). -/
def charEqCI (ci : Bool) (a b : Char) : Bool :=
  if ci then a.toLower == b.toLower else a == b

/-- needle matches at the start of s (optionally case-insensitively). -/
def litHere (ci : Bool) : List Char → List Char → Bool
  | [], _ => true
  | _ :: _, [] => false
  | a :: as, b :: bs => charEqCI ci a b && litHere ci as bs

/-- needle occurs somewhere in s, as with Python "needle in s". -/
def hasLit (ci : Bool) (needle : List Char) : List Char → Bool
  | [] => litHere ci needle []
  | c :: rest => litHere ci needle (c :: rest) || hasLit ci needle rest

/-- str.strip(): drop whitespace from both ends. -/
def stripCs (s : List Char) : List Char :=
  ((s.dropWhile isWsChar).reverse.dropWhile isWsChar).reverse

/-- Decimal digit run to a number, as int() on a \d+ capture. -/
def digitsToNat (ds : List Char) : Nat :=
  ds.foldl (fun a c => a * 10 + (c.toNat - '0'.toNat)) 0

/-- re.sub(pattern, repl, s) for a matcher giving the match length at a
position: scan left to right, replace non-overlapping matches. Fuel at
least the string length plus one suffices since every match is nonempty. -/
def subAll (m : List Char → Option Nat) (repl : List Char) :
    Nat → List Char → List Char
  | 0, s => s
  | _ + 1, [] => []
  | fuel + 1, c :: rest =>
      match m (c :: rest) with
      | some len => repl ++ subAll m repl fuel (List.drop len (c :: rest))
      | none => c :: subAll m repl fuel rest

/-- re.findall for a matcher returning match length and capture. -/
def findAllM (m : List Char → Option (Nat × List Char)) :
    Nat → List Char → List (List Char)
  | 0, _ => []
  | _ + 1, [] => []
  | fuel + 1, c :: rest =>
      match m (c :: rest) with
      | some (len, cap) => cap :: findAllM m fuel (List.drop len (c :: rest))
      | none => findAllM m fuel rest

/-- re.search: the first position where the matcher succeeds. -/
def searchM {α : Type} (m : List Char → Option α) : List Char → Option α
  | [] => none
  | c :: rest =>
      match m (c :: rest) with
      | some a => some a
      | none => searchM m rest

/-- str.replace(old, "") for a nonempty old, left to right. -/
def replaceLit (old : List Char) (s : List Char) : List Char :=
  subAll (fun t => if old.length != 0 && litHere false old t then some old.length else none)
    [] (s.length + 1) s

/-- Matcher for the alternation of literal strings, first alternative
wins, as in a regex group lit1|lit2|... anchored at the position. -/
def altLitM (ci : Bool) : List (List Char) → List Char → Option Nat
  | [], _ => none
  | a :: as, s =>
      if a.length != 0 && litHere ci a s then some a.length else altLitM ci as s

/-- Matcher for the provider tag @([^\s@]+): an at sign followed by a
nonempty run without whitespace or at signs; captures the run. -/
def atTagM : List Char → Option (Nat × List Char)
  | [] => none
  | c :: rest =>
      if c == '@' then
        let run := rest.takeWhile (fun d => !(isWsChar d) && d != '@')
        if run.length == 0 then none else some (1 + run.length, run)
      else none

/-- Matcher for the numeric size (\d+)[x×](\d+); the two captures are
returned joined by the separator so the generic drivers apply, and split
again by the caller. Case-insensitivity admits a capital X. -/
def wxhM (s : List Char) : Option (Nat × (List Char × List Char)) :=
  let d1 := s.takeWhile Char.isDigit
  if d1.length == 0 then none
  else
    match s.drop d1.length with
    | [] => none
    | c :: rest2 =>
        if c == 'x' || c == 'X' || c == '×' then
          let d2 := rest2.takeWhile Char.isDigit
          if d2.length == 0 then none
          else some (d1.length + 1 + d2.length, (d1, d2))
        else none

/-- Length-only view of a capture matcher, for use with subAll. -/
def lenOf {β : Type} (m : List Char → Option (Nat × β)) (s : List Char) : Option Nat :=
  (m s).map (fun p => p.1)

/-- Matcher for count patterns of shape (\d+)\s*LIT, e.g. (\d+)\s*张 and,
with optS, the English (\d+)\s*pics? and (\d+)\s*images?. Captures the
digits. -/
def digWsLitM (ci : Bool) (closer : List Char) (optS : Bool) (s : List Char) :
    Option (Nat × List Char) :=
  let d := s.takeWhile Char.isDigit
  if d.length == 0 then none
  else
    let s1 := s.drop d.length
    let w := s1.takeWhile isWsChar
    let s2 := s1.drop w.length
    if litHere ci closer s2 then
      let extra := if optS && litHere ci [ 's' ] (s2.drop closer.length) then 1 else 0
      some (d.length + w.length + closer.length + extra, d)
    else none

/-- Matcher for count patterns of shape LIT\s*(\d+), e.g. 生成\s*(\d+). -/
def litWsDigM (ci : Bool) (opener : List Char) (s : List Char) :
    Option (Nat × List Char) :=
  if opener.length != 0 && litHere ci opener s then
    let s1 := s.drop opener.length
    let w := s1.takeWhile isWsChar
    let d := (s1.drop w.length).takeWhile Char.isDigit
    if d.length == 0 then none
    else some (opener.length + w.length + d.length, d)
  else none

/-- Matcher for seed patterns LIT[:：]?\s*(\d+). When the optional colon is
present but no digits follow, the colon-free branch cannot match either
(the colon is neither whitespace nor a digit), so no backtracking arises. -/
def seedLitM (opener : List Char) (s : List Char) : Option (Nat × List Char) :=
  if litHere true opener s then
    let s1 := s.drop opener.length
    let cl := match s1 with
      | c :: _ => if c == ':' || c == '：' then 1 else 0
      | [] => 0
    let s2 := s1.drop cl
    let w := s2.takeWhile isWsChar
    let d := (s2.drop w.length).takeWhile Char.isDigit
    if d.length == 0 then none
    else some (opener.length + cl + w.length + d.length, d)
  else none

/-- The punctuation class excluded by negative-prompt captures. -/
def isNegPunct (c : Char) : Bool :=
  c == '，' || c == ',' || c == '。' || c == '；' || c == ';'

/-- Matcher for the negative-prompt pattern KW\s*([^，,。；;]+). The capture
class admits whitespace, so when only whitespace separates the keyword from
punctuation, the greedy \s* backtracks one character and the capture is
that single whitespace character. -/
def negKwM (kw : List Char) (s : List Char) : Option (Nat × List Char) :=
  if litHere true kw s then
    let s1 := s.drop kw.length
    let w := s1.takeWhile isWsChar
    let cap := (s1.drop w.length).takeWhile (fun c => !(isNegPunct c))
    if cap.length != 0 then some (kw.length + w.length + cap.length, cap)
    else if w.length != 0 then some (kw.length + w.length, [ w.getLastD ' ' ])
    else none
  else none

/-- Matcher for the removal pattern KW\s*LIT built from a negative capture:
greedy \s* followed by the literal, backtracking the whitespace run from
longest to shortest. -/
def wsLitTry (ci : Bool) (lit s1 : List Char) : Nat → Option Nat
  | 0 => if litHere ci lit s1 then some lit.length else none
  | k + 1 =>
      if litHere ci lit (s1.drop (k + 1)) then some (k + 1 + lit.length)
      else wsLitTry ci lit s1 k

/-- Full matcher for KW\s*LIT (both matched case-insensitively). -/
def kwLitM (kw lit : List Char) (s : List Char) : Option Nat :=
  if litHere true kw s then
    let s1 := s.drop kw.length
    let w := (s1.takeWhile isWsChar).length
    match wsLitTry true lit s1 w with
    | some n => if kw.length + n == 0 then none else some (kw.length + n)
    | none => none
  else none

/-- The character class [^\s，,。] used by the style and provider-phrase
patterns. -/
def noWsPunct (c : Char) : Bool :=
  !(isWsChar c) && c != '，' && c != ',' && c != '。'

/-- Matcher for the run of punctuation [，,。；;]+ collapsed by cleanup. -/
def punctRunM (s : List Char) : Option Nat :=
  let run := s.takeWhile isNegPunct
  if run.length == 0 then none else some run.length

/-- Matcher for a whitespace run \s+. -/
def wsRunM (s : List Char) : Option Nat :=
  let run := s.takeWhile isWsChar
  if run.length == 0 then none else some run.length

/-- MessageParser.provider_aliases, in dictionary insertion order. -/
def provider_aliases : List (String × String) := [
  ("阿里", "tongyi"), ("通义", "tongyi"), ("万相", "tongyi"), ("tongyi", "tongyi"),
  ("火山", "volcengine"), ("volcengine", "volcengine"),
  ("百度", "qianfan"), ("千帆", "qianfan"), ("qianfan", "qianfan"),
  ("讯飞", "xunfei"), ("星火", "xunfei"), ("xunfei", "xunfei"),
  ("ppio", "ppio"),
  ("智谱", "zhipu"), ("zhipu", "zhipu"), ("chatglm", "zhipu"),
  ("openai", "openai"), ("dall-e", "openai"), ("dalle", "openai"),
  ("gemini", "gemini"), ("google", "gemini"),
  ("grok", "grok"), ("x.ai", "grok")]

/-- Python str.lower folded characterwise (ASCII folding). -/
def lowerCs (s : List Char) : List Char := s.map Char.toLower

/-- provider_aliases.get(key) for an already-lowercased key. -/
def aliasGet (k : List Char) : Option String :=
  (provider_aliases.find? (fun p => p.1.data == k)).map (fun p => p.2)

/-- First capture whose lowercased text is a known alias. -/
def firstAliasHit : List (List Char) → Option String
  | [] => none
  | m :: rest =>
      match aliasGet (lowerCs m) with
      | some p => some p
      | none => firstAliasHit rest

/-- Non-greedy capture of the phrase pattern: the shortest nonempty class
run after the opener that is followed by one of the closers. k is the
candidate length, b the number of longer candidates still allowed. -/
def useTry (s1 : List Char) (closers : List (List Char)) :
    Nat → Nat → Option (Nat × List Char)
  | k, b =>
      match altLitM false closers (s1.drop k) with
      | some cl => some (k + cl, s1.take k)
      | none =>
          match b with
          | 0 => none
          | b + 1 => useTry s1 closers (k + 1) b

/-- Matcher for (?:使用|用)([^\s，,。]+?)(?:生成|画|绘制). -/
def useM (s : List Char) : Option (Nat × List Char) :=
  match altLitM false [ "使用".data, "用".data ] s with
  | none => none
  | some ol =>
      let s1 := s.drop ol
      match (s1.takeWhile noWsPunct).length with
      | 0 => none
      | r + 1 => (useTry s1 [ "生成".data, "画".data, "绘制".data ] 1 r).map
          (fun p => (ol + p.1, p.2))

/-- MessageParser._extract_provider: @-tag captures first, then the phrase
pattern, then a direct alias mention in the lowercased message. -/
def extractProvider (msg : List Char) : Option String :=
  match firstAliasHit (findAllM atTagM (msg.length + 1) msg) with
  | some p => some p
  | none =>
      match firstAliasHit (findAllM useM (msg.length + 1) msg) with
      | some p => some p
      | none =>
          (provider_aliases.find? (fun p => hasLit false p.1.data (lowerCs msg))).map
            (fun p => p.2)

/-- MessageParser.size_patterns after the numeric pattern, in dictionary
order: alternatives of each preset pattern with the fixed size each maps
to. -/
def size_presets : List (List String × ImageSize) := [
  (["方形", "正方形", "square"], ⟨1024, 1024⟩),
  (["横版", "横图", "landscape"], ⟨1792, 1024⟩),
  (["竖版", "竖图", "portrait"], ⟨1024, 1792⟩),
  (["超宽", "ultrawide"], ⟨1792, 1024⟩),
  (["高清", "hd"], ⟨1024, 1024⟩),
  (["4k"], ⟨2048, 2048⟩),
  (["小图", "small"], ⟨512, 512⟩),
  (["中图", "medium"], ⟨768, 768⟩),
  (["大图", "large"], ⟨1024, 1024⟩),
  (["超大", "xlarge"], ⟨1536, 1536⟩)]

/-- Search the preset patterns in order; the first pattern that matches
anywhere in the message yields its fixed size. -/
def sizePresetSearch (msg : List Char) :
    List (List String × ImageSize) → Option ImageSize
  | [] => none
  | (alts, sz) :: rest =>
      if (searchM (altLitM true (alts.map String.data)) msg).isSome then some sz
      else sizePresetSearch msg rest

/-- MessageParser._extract_size: the numeric pattern first, then the
presets in order; the int conversions on \d+ captures cannot fail, so the
exception branch of the source is dead. -/
def extractSize (msg : List Char) : Option ImageSize :=
  match searchM wxhM msg with
  | some pr => some ⟨digitsToNat pr.2.1, digitsToNat pr.2.2⟩
  | none => sizePresetSearch msg size_presets

/-- MessageParser.style_keywords, in dictionary insertion order. -/
def style_keywords : List (String × String) := [
  ("写实", "realistic"), ("卡通", "cartoon"), ("动漫", "anime"),
  ("油画", "oil_painting"), ("水彩", "watercolor"), ("素描", "sketch"),
  ("黑白", "black_white"), ("赛博朋克", "cyberpunk"), ("蒸汽朋克", "steampunk"),
  ("简约", "minimalist"), ("抽象", "abstract"), ("科幻", "sci_fi"),
  ("奇幻", "fantasy"), ("恐怖", "horror"), ("可爱", "cute"), ("清新", "fresh"),
  ("暗黑", "dark"), ("明亮", "bright"), ("梦幻", "dreamy"), ("复古", "vintage"),
  ("现代", "modern"), ("古典", "classical")]

/-- Matcher for (?:风格|样式)[:：]?\s*([^\s，,。]+). When the optional colon
is consumed but no class character follows, the colon-free reading matches
the colon itself as the capture (a colon is in the class). -/
def sty1M (s : List Char) : Option (Nat × List Char) :=
  match altLitM false [ "风格".data, "样式".data ] s with
  | none => none
  | some ol =>
      let s1 := s.drop ol
      match s1 with
      | [] => none
      | c :: r =>
          if c == ':' || c == '：' then
            let w := r.takeWhile isWsChar
            let cap := (r.drop w.length).takeWhile noWsPunct
            if cap.length != 0 then some (ol + 1 + w.length + cap.length, cap)
            else
              let cap2 := s1.takeWhile noWsPunct
              some (ol + cap2.length, cap2)
          else
            let w := s1.takeWhile isWsChar
            let cap := (s1.drop w.length).takeWhile noWsPunct
            if cap.length != 0 then some (ol + w.length + cap.length, cap) else none

/-- Greedy capture of ([^\s，,。]+)(?:风格|样式): longest class run whose
remainder starts with a closer, backtracking downward. -/
def sty2Try (s : List Char) (closers : List (List Char)) :
    Nat → Option (Nat × List Char)
  | 0 => none
  | len + 1 =>
      match altLitM false closers (s.drop (len + 1)) with
      | some cl => some (len + 1 + cl, s.take (len + 1))
      | none => sty2Try s closers len

/-- Matcher for ([^\s，,。]+)(?:风格|样式). -/
def sty2M (s : List Char) : Option (Nat × List Char) :=
  sty2Try s [ "风格".data, "样式".data ] (s.takeWhile noWsPunct).length

/-- Matcher for (?:做成|制作成|设计成)\s*([^\s，,。]+). -/
def sty3M (s : List Char) : Option (Nat × List Char) :=
  match altLitM false [ "做成".data, "制作成".data, "设计成".data ] s with
  | none => none
  | some ol =>
      let s1 := s.drop ol
      let w := s1.takeWhile isWsChar
      let cap := (s1.drop w.length).takeWhile noWsPunct
      if cap.length != 0 then some (ol + w.length + cap.length, cap) else none

/-- Resolution of a style-pattern capture: strip it, map it through the
keyword table if known, otherwise keep it as a custom style. -/
def styleResolve (cap : List Char) : String :=
  let t := stripCs cap
  match style_keywords.find? (fun p => p.1.data == t) with
  | some p => p.2
  | none => String.mk t

/-- MessageParser._extract_style: keyword containment in table order, then
the three description patterns in order. -/
def extractStyle (msg : List Char) : Option String :=
  match (style_keywords.find? (fun p => hasLit false p.1.data msg)).map (fun p => p.2) with
  | some sty => some sty
  | none =>
      match searchM sty1M msg with
      | some pr => some (styleResolve pr.2)
      | none =>
          match searchM sty2M msg with
          | some pr => some (styleResolve pr.2)
          | none => (searchM sty3M msg).map (fun pr => styleResolve pr.2)

/-- The seven count patterns of _extract_count, in order. -/
def countMs : List (List Char → Option (Nat × List Char)) := [
  digWsLitM true "张".data false, digWsLitM true "个".data false,
  digWsLitM true "幅".data false, litWsDigM true "生成".data,
  litWsDigM true "画".data, digWsLitM true "pic".data true,
  digWsLitM true "image".data true]

/-- First pattern in the list that matches anywhere; yields its capture. -/
def firstSearch (msg : List Char) :
    List (List Char → Option (Nat × List Char)) → Option (List Char)
  | [] => none
  | m :: rest =>
      match searchM m msg with
      | some pr => some pr.2
      | none => firstSearch msg rest

/-- MessageParser._extract_count, clamped into [1, 10]; the int conversion
on a \d+ capture cannot fail, so the ValueError branch is dead. -/
def extractCount (msg : List Char) : Nat :=
  match firstSearch msg countMs with
  | some d => max 1 (min (digitsToNat d) 10)
  | none => 1

/-- MessageParser._extract_seed over its three patterns in order. -/
def extractSeed (msg : List Char) : Option Nat :=
  match firstSearch msg
      [ seedLitM "seed".data, seedLitM "种子".data, seedLitM "随机种子".data ] with
  | some d => some (digitsToNat d)
  | none => none

/-- MessageParser.quality_keywords, in dictionary insertion order. -/
def quality_keywords : List (String × String) := [
  ("高质量", "high"), ("最高质量", "highest"), ("标准质量", "standard"),
  ("快速", "fast"), ("精细", "detailed"), ("粗糙", "rough")]

/-- MessageParser._extract_quality: keyword containment in table order. -/
def extractQuality (msg : List Char) : Option String :=
  (quality_keywords.find? (fun p => hasLit false p.1.data msg)).map (fun p => p.2)

/-- Removal of provider tags: re.sub of @[^\s@]+ with the empty string. -/
def stripAtTags (s : List Char) : List Char :=
  subAll (lenOf atTagM) [] (s.length + 1) s

/-- The size-removal patterns, in the order _extract_prompts applies them. -/
def size_sub_ms : List (List Char → Option Nat) :=
  lenOf wxhM :: size_presets.map (fun pr => altLitM true (pr.1.map String.data))

/-- Sequential re.sub of every size pattern. -/
def stripSizes (s : List Char) : List Char :=
  size_sub_ms.foldl (fun acc m => subAll m [] (acc.length + 1) acc) s

/-- Sequential str.replace of each keyword with the empty string. -/
def stripKeywordList (kws : List String) (s : List Char) : List Char :=
  kws.foldl (fun acc kw => replaceLit kw.data acc) s

/-- The five count-removal patterns of _extract_prompts, in order. -/
def count_sub_ms : List (List Char → Option Nat) := [
  lenOf (digWsLitM true "张".data false), lenOf (digWsLitM true "个".data false),
  lenOf (digWsLitM true "幅".data false), lenOf (litWsDigM true "生成".data),
  lenOf (litWsDigM true "画".data)]

/-- Sequential re.sub of the count-removal patterns. -/
def stripCounts (s : List Char) : List Char :=
  count_sub_ms.foldl (fun acc m => subAll m [] (acc.length + 1) acc) s

/-- The trigger words removed by _extract_prompts, in order. -/
def trigger_words : List String :=
  ["画", "绘画", "画个", "画张", "画一个", "画一张", "生图", "画画", "生成", "制作", "创建"]

/-- Style-keyword removal pass. -/
def stripStyleKeywords (s : List Char) : List Char :=
  stripKeywordList (style_keywords.map (fun p => p.1)) s

/-- Quality-keyword removal pass. -/
def stripQualityKeywords (s : List Char) : List Char :=
  stripKeywordList (quality_keywords.map (fun p => p.1)) s

/-- Trigger-word removal pass. -/
def stripTriggerWords (s : List Char) : List Char :=
  stripKeywordList trigger_words s

/-- Negative extraction for one keyword: findall on the current positive
prompt, then for each capture append its stripped text and re.sub away
every occurrence of keyword-whitespace-capture. -/
def negOneKw (kw : List Char) (acc : List Char × List (List Char)) :
    List Char × List (List Char) :=
  let ms := findAllM (negKwM kw) (acc.1.length + 1) acc.1
  ms.foldl (fun a m => (subAll (kwLitM kw m) [] (a.1.length + 1) a.1,
    a.2 ++ [stripCs m])) acc

/-- The negative-keyword loop over the caller-supplied keyword list. -/
def negSplit (negKws : List String) (p : List Char) :
    List Char × List (List Char) :=
  negKws.foldl (fun acc kw => negOneKw kw.data acc) (p, [])

/-- ", ".join of the negative parts. -/
def joinCommaSp : List (List Char) → List Char
  | [] => []
  | [x] => x
  | x :: y :: rest => x ++ (',' :: ' ' :: joinCommaSp (y :: rest))

/-- Final prompt cleanup: collapse punctuation runs to a space, collapse
whitespace runs to a space, strip. -/
def cleanupWs (s : List Char) : List Char :=
  let p1 := subAll punctRunM [ ' ' ] (s.length + 1) s
  let p2 := subAll wsRunM [ ' ' ] (p1.length + 1) p1
  stripCs p2

/-- MessageParser._extract_prompts: the ordered removal passes, then the
negative split, then cleanup of the positive prompt (the negative prompt
is joined but not cleaned). -/
def extractPrompts (msg : List Char) (negKws : List String) :
    List Char × List Char :=
  let c := stripTriggerWords (stripQualityKeywords (stripCounts
    (stripStyleKeywords (stripSizes (stripAtTags msg)))))
  let pr := negSplit negKws c
  (cleanupWs pr.1, joinCommaSp pr.2)

/-- From src/utils/message_parser.py, dataclass ParsedMessage. -/
structure ParsedMessage where
  prompt : String := ""
  negative_prompt : String := ""
  provider_name : Option String := none
  size : Option ImageSize := none
  style : Option String := none
  count : Nat := 1
  seed : Option Nat := none
  quality : Option String := none
  raw_message : String := ""
deriving DecidableEq, Repr

/-- MessageParser._parse_message_sync. Every alias value is a nonempty
string, so the Python or-with-default on the provider is getD. -/
def parseMessageSync (message : String) (negative_keywords : List String)
    (default_provider : String) : ParsedMessage :=
  let msg := message.data
  let pr := extractPrompts msg negative_keywords
  { raw_message := message
    provider_name := some ((extractProvider msg).getD default_provider)
    size := extractSize msg
    style := extractStyle msg
    count := extractCount msg
    seed := extractSeed msg
    quality := extractQuality msg
    prompt := String.mk pr.1
    negative_prompt := String.mk pr.2 }

/-
Auxiliary definitions used to state the theorems below.
-/

/-- The sleep schedule retry_delay * start, retry_delay * (start+1), ... of
a run of consecutive failed attempts. -/
def linSleeps (delay : ℚ) (start len : Nat) : List ℚ :=
  (List.range' start len).map (fun i => delay * (i : ℚ))

/-- No extraction stage finds anything in p and no removal or cleanup pass
changes p: p carries no residual provider, size, style, count, seed,
quality, trigger or negative-trigger token and is already in cleaned
form. -/
def NoResidualTokens (p : List Char) (negKws : List String) : Prop :=
  extractProvider p = none ∧ extractSize p = none ∧ extractStyle p = none ∧
  extractCount p = 1 ∧ extractSeed p = none ∧ extractQuality p = none ∧
  stripAtTags p = p ∧ stripSizes p = p ∧ stripStyleKeywords p = p ∧
  stripCounts p = p ∧ stripQualityKeywords p = p ∧ stripTriggerWords p = p ∧
  (∀ kw ∈ negKws, findAllM (negKwM kw.data) (p.length + 1) p = []) ∧
  cleanupWs p = p

instance (p : List Char) (negKws : List String) :
    Decidable (NoResidualTokens p negKws) :=
  inferInstanceAs (Decidable (_ ∧ _))

/-- The final state of a generate_image call, with the input state as the
default for the unreachable fuel-exhaustion case. -/
def outStateD (o : Option GenOutcome) (st : ManagerState) : ManagerState :=
  match o with
  | some x => x.state
  | none => st

/-- The outcome of a generate_image call, defaulting to a dummy for the
unreachable fuel-exhaustion case. -/
def outD (o : Option GenOutcome) (st : ManagerState) : GenOutcome :=
  match o with
  | some x => x
  | none => ⟨noProviderResult, st, [], OutcomeTag.noProvider⟩

/-- A successful adapter result used by concrete scenarios. -/
def okResult : GenerationResult :=
  { success := true, data := some (ImagePayload.one "img") }

/-- A failing adapter result used by concrete scenarios. -/
def boomResult : GenerationResult :=
  { success := false, error_message := some "boom" }

/-- A result that reports success but carries no data. -/
def succNoData : GenerationResult := { success := true }

/-- A success-flagged, data-free result with arbitrary remaining fields. -/
def succNoDataWith (em : Option String) (rty : ResponseType)
    (md : Option (List (String × String))) : GenerationResult :=
  { success := true, data := none, error_message := em,
    response_type := rty, metadata := md }

/-- The adapter behaviour of the C10 fallback scenario: provider A returns
the given success-flagged data-free result, every other provider returns
okResult. -/
def behANoData (em : Option String) (rty : ResponseType)
    (md : Option (List (String × String))) : String → AttemptBehavior :=
  fun n => if n = "A" then AttemptBehavior.returns (succNoDataWith em rty md)
    else AttemptBehavior.returns okResult

/-- Generation parameters used by concrete scenarios. -/
def paramsW : GenerationParams := { prompt := "cat" }

/-- A manager with the single registered, enabled provider A. -/
def stOneA : ManagerState :=
  ⟨["A"], fun _ => true, ["A"], "priority", 0, fun _ => initStats, true⟩

/-- A manager with the registered, enabled providers A and B. -/
def stAB : ManagerState :=
  ⟨["A", "B"], fun _ => true, ["A", "B"], "priority", 0, fun _ => initStats, true⟩

/-- A round-robin manager over A, B, C with the cursor at 0. -/
def stABC : ManagerState :=
  ⟨["A", "B", "C"], fun _ => true, ["A", "B", "C"], "round_robin", 0,
   fun _ => initStats, true⟩

/-- One Selector call with no exclusions: the state after. -/
def rrNext (st : ManagerState) : ManagerState := (selectProvider st 0 []).2

/-- One Selector call with no exclusions: the name returned. -/
def rrPick (st : ManagerState) : Option String := (selectProvider st 0 []).1

/-- Behaviour where every adapter fails with a fixed result. -/
def behAllBoom : String → AttemptBehavior := fun _ => AttemptBehavior.returns boomResult

/-- Behaviour where every adapter succeeds. -/
def behAllOk : String → AttemptBehavior := fun _ => AttemptBehavior.returns okResult

/-- Constant time oracles. -/
def timeZero : String → ℚ := fun _ => 0

/-- Constant randomness oracle. -/
def randZero : Nat → Nat := fun _ => 0

/-- Outcome of requesting provider A explicitly on the one-provider manager
when A fails: the explicit attempt fails, A joins the exclusion set, and
the selection loop finds no candidate. -/
def oneAFailOut : GenOutcome :=
  outD (generate_image behAllBoom timeZero timeZero randZero stOneA paramsW
    (some "A") none) stOneA

/-- Outcome of a plain generate_image call on the two-provider manager when
both providers fail: the loop exhausts the enabled set. -/
def abFailOut : GenOutcome :=
  outD (generate_image behAllBoom timeZero timeZero randZero stAB paramsW
    none none) stAB

/-- One successful explicit generation call against provider A with a given
measured latency, returning the updated manager state. -/
def c6Step (lat : ℚ) (st : ManagerState) : ManagerState :=
  outStateD (generate_image behAllOk (fun _ => lat) (fun _ => lat) randZero st
    paramsW (some "A") none) st

/-- Additional concrete behaviours for the witnesses below. -/
def behBoomN : Nat → AttemptBehavior := fun _ => AttemptBehavior.raises "boom"

/-- Fails on the first attempt, succeeds on every later one. -/
def behOkAt1 : Nat → AttemptBehavior := fun i =>
  if i = 0 then AttemptBehavior.raises "boom" else AttemptBehavior.returns okResult

/-- A provider configuration left at its defaults. -/
def cfgDef : ProviderConfig := { name := "p" }

/-- Capabilities used by the preprocessing witness. -/
def capW : ProviderCapabilities :=
  { supported_sizes := [⟨512, 512⟩], max_images_per_request := 2 }

/-- Parameters used by the preprocessing witness. -/
def paramsFive : GenerationParams := { prompt := "x", num_images := 5 }

/-
Helper lemmas about the Selector and the loop; these are shared
infrastructure, not claim theorems.
-/

theorem getD_mem {l : List String} {i : Nat} (d : String) (h : i < l.length) :
    l.getD i d ∈ l := by
  induction l generalizing i with
  | nil => simp at h
  | cons a t ih =>
      cases i with
      | zero => simp
      | succ j =>
          simp only [List.getD_cons_succ]
          exact List.mem_cons_of_mem a (ih (by simpa using h))

theorem pickMin_mem (f : String → ℚ) :
    ∀ (l : List String) (b : String), pickMin f b l ∈ b :: l := by
  intro l
  induction l with
  | nil => intro b; simp [pickMin]
  | cons x t ih =>
      intro b
      simp only [pickMin]
      rcases List.mem_cons.mp (ih (if f x < f b then x else b)) with heq | hmem
      · rw [heq]
        by_cases hc : f x < f b <;> simp [hc]
      · simp [List.mem_cons, Or.inr (Or.inr hmem)]

theorem select_snd_enabled (st : ManagerState) (rand : Nat) (ex : List String) :
    (selectProvider st rand ex).2.enabled_providers = st.enabled_providers := by
  simp only [selectProvider]
  split
  · rfl
  · split_ifs <;> rfl

theorem genWith_snd_enabled (beh : String → AttemptBehavior) (rt endT : String → ℚ)
    (st : ManagerState) (name : String) :
    (genWithProvider beh rt endT st name).2.enabled_providers = st.enabled_providers := by
  unfold genWithProvider
  cases beh name <;> rfl

theorem genWith_fst (beh : String → AttemptBehavior) (rt endT : String → ℚ)
    (st : ManagerState) (name : String) :
    (genWithProvider beh rt endT st name).1 = attemptResultOf beh name := by
  unfold genWithProvider attemptResultOf
  cases beh name <;> rfl

theorem genWith_snd_providers (beh : String → AttemptBehavior) (rt endT : String → ℚ)
    (st : ManagerState) (name : String) :
    (genWithProvider beh rt endT st name).2.providers = st.providers := by
  unfold genWithProvider
  cases beh name <;> rfl

theorem genWith_snd_strategy (beh : String → AttemptBehavior) (rt endT : String → ℚ)
    (st : ManagerState) (name : String) :
    (genWithProvider beh rt endT st name).2.load_balance_strategy =
      st.load_balance_strategy := by
  unfold genWithProvider
  cases beh name <;> rfl

theorem select_fst_mem {st : ManagerState} {rand : Nat} {ex : List String} {n : String}
    (h : (selectProvider st rand ex).1 = some n) :
    n ∈ st.enabled_providers ∧ ¬ n ∈ ex := by
  have hsub : ∀ m ∈ st.enabled_providers.filter
      (fun x => !(ex.contains x) && st.providers.contains x),
      m ∈ st.enabled_providers ∧ ¬ m ∈ ex := by
    intro m hm
    have hmf := List.mem_filter.mp hm
    refine ⟨hmf.1, ?_⟩
    have hp := hmf.2
    simp at hp
    exact hp.1
  simp only [selectProvider] at h
  rcases hfil : List.filter (fun x => !(ex.contains x) && st.providers.contains x)
      st.enabled_providers with _ | ⟨x, xs⟩
  · rw [hfil] at h
    simp at h
  · rw [hfil] at h
    split_ifs at h <;>
      (simp only [Option.some.injEq] at h
       subst h
       refine hsub _ ?_
       rw [hfil])
    · exact getD_mem "" (by
        split
        · simp
        · omega)
    · exact getD_mem "" (Nat.mod_lt _ (by simp))
    · simp
    · rcases List.mem_cons.mp
          (pickMin_mem (fun n => (st.provider_stats n).avg_response_time) xs x) with h1 | h1
      · simp [h1]
      · simp [List.mem_cons, Or.inr h1]
    · simp
    · simp

theorem nodup_sub_length_le {l m : List String} (hn : l.Nodup)
    (hs : ∀ x ∈ l, x ∈ m) : l.length ≤ m.length := by
  classical
  have h1 : l.toFinset.card = l.length := List.toFinset_card_of_nodup hn
  have h2 : l.toFinset ⊆ m.toFinset := by
    intro a ha
    simp only [List.mem_toFinset] at *
    exact hs a ha
  have h3 := Finset.card_le_card h2
  have h4 : m.toFinset.card ≤ m.length := m.toFinset_card_le
  omega

theorem genLoop_isSome (beh : String → AttemptBehavior) (rt endT : String → ℚ)
    (rand : Nat → Nat) (ufb : Bool) :
    ∀ (fuel : Nat) (st : ManagerState) (ex att : List String) (k : Nat),
      st.enabled_providers.length + 1 ≤ fuel + ex.length → 1 ≤ fuel →
      (genLoop beh rt endT rand ufb fuel st ex att k).isSome := by
  intro fuel
  induction fuel with
  | zero => intro st ex att k _ h1; omega
  | succ f ih =>
      intro st ex att k hlen _
      rcases hsel : selectProvider st (rand k) ex with ⟨o, st'⟩
      have hen' : st'.enabled_providers = st.enabled_providers := by
        have h := select_snd_enabled st (rand k) ex
        rw [hsel] at h
        exact h
      cases o with
      | none => simp [genLoop, hsel]
      | some name =>
          rcases hgen : genWithProvider beh rt endT st' name with ⟨r, st''⟩
          have hen'' : st''.enabled_providers = st'.enabled_providers := by
            have h := genWith_snd_enabled beh rt endT st' name
            rw [hgen] at h
            exact h
          simp only [genLoop, hsel, hgen]
          split_ifs with h1 h2 h3
          · simp
          · simp
          · simp
          · simp only [List.length_append, List.length_cons, List.length_nil,
              ge_iff_le, not_le, hen'', hen'] at h3
            apply ih
            · rw [hen'', hen']
              simp only [List.length_append, List.length_cons, List.length_nil]
              omega
            · omega

theorem genLoop_attempted (beh : String → AttemptBehavior) (rt endT : String → ℚ)
    (rand : Nat → Nat) (ufb : Bool) :
    ∀ (fuel : Nat) (st : ManagerState) (ex att : List String) (k : Nat)
      (out : GenOutcome),
      genLoop beh rt endT rand ufb fuel st ex att k = some out →
      att.Nodup → (∀ x ∈ att, x ∈ ex) → (∀ x ∈ att, x ∈ st.enabled_providers) →
      out.attempted.Nodup ∧ ∀ x ∈ out.attempted, x ∈ st.enabled_providers := by
  intro fuel
  induction fuel with
  | zero => intro st ex att k out h; simp [genLoop] at h
  | succ f ih =>
      intro st ex att k out hout hnd hex hen
      rcases hsel : selectProvider st (rand k) ex with ⟨o, st'⟩
      have hen' : st'.enabled_providers = st.enabled_providers := by
        have h := select_snd_enabled st (rand k) ex
        rw [hsel] at h
        exact h
      cases o with
      | none =>
          simp only [genLoop, hsel, Option.some.injEq] at hout
          subst hout
          exact ⟨hnd, hen⟩
      | some name =>
          have hmem : name ∈ st.enabled_providers ∧ ¬ name ∈ ex :=
            select_fst_mem (by rw [hsel])
          rcases hgen : genWithProvider beh rt endT st' name with ⟨r, st''⟩
          have hen'' : st''.enabled_providers = st'.enabled_providers := by
            have h := genWith_snd_enabled beh rt endT st' name
            rw [hgen] at h
            exact h
          have hnd' : (att ++ [name]).Nodup := by
            rw [List.nodup_append]
            refine ⟨hnd, List.nodup_singleton name, ?_⟩
            intro a ha hb
            simp only [List.mem_singleton] at hb
            subst hb
            exact hmem.2 (hex a ha)
          have henApp : ∀ x ∈ att ++ [name], x ∈ st.enabled_providers := by
            intro x hx
            rcases List.mem_append.mp hx with hx | hx
            · exact hen x hx
            · simp only [List.mem_singleton] at hx
              subst hx
              exact hmem.1
          simp only [genLoop, hsel, hgen] at hout
          split_ifs at hout with h1 h2 h3 <;>
            first
            | (simp only [Option.some.injEq] at hout
               subst hout
               exact ⟨hnd', henApp⟩)
            | (have hres := ih st'' (ex ++ [name]) (att ++ [name]) (k + 1) out hout hnd'
                (by
                  intro x hx
                  rcases List.mem_append.mp hx with hx | hx
                  · exact List.mem_append.mpr (Or.inl (hex x hx))
                  · exact List.mem_append.mpr (Or.inr hx))
                (by rw [hen'', hen']; exact henApp)
               rw [hen'', hen'] at hres
               exact hres)

theorem genLoop_tags (beh : String → AttemptBehavior) (rt endT : String → ℚ)
    (rand : Nat → Nat) (ufb : Bool) :
    ∀ (fuel : Nat) (st : ManagerState) (ex att : List String) (k : Nat)
      (out : GenOutcome),
      genLoop beh rt endT rand ufb fuel st ex att k = some out →
      (out.tag = OutcomeTag.noProvider → out.result = noProviderResult) ∧
      (out.tag = OutcomeTag.exhausted → out.attempted ≠ [] ∧
        ∃ last, out.attempted.getLast? = some last ∧
          out.result = exhaustedResult (attemptResultOf beh last)) := by
  intro fuel
  induction fuel with
  | zero => intro st ex att k out h; simp [genLoop] at h
  | succ f ih =>
      intro st ex att k out hout
      rcases hsel : selectProvider st (rand k) ex with ⟨o, st'⟩
      cases o with
      | none =>
          simp only [genLoop, hsel, Option.some.injEq] at hout
          subst hout
          exact ⟨fun _ => rfl, fun h => by simp at h⟩
      | some name =>
          rcases hgen : genWithProvider beh rt endT st' name with ⟨r, st''⟩
          have hr : r = attemptResultOf beh name := by
            have h := genWith_fst beh rt endT st' name
            rw [hgen] at h
            exact h
          simp only [genLoop, hsel, hgen] at hout
          split_ifs at hout with h1 h2 h3
          · simp only [Option.some.injEq] at hout
            subst hout
            exact ⟨fun h => by simp at h, fun h => by simp at h⟩
          · simp only [Option.some.injEq] at hout
            subst hout
            exact ⟨fun h => by simp at h, fun h => by simp at h⟩
          · simp only [Option.some.injEq] at hout
            subst hout
            refine ⟨fun h => by simp at h, fun _ => ⟨by simp, name, ?_, ?_⟩⟩
            · exact List.getLast?_concat _
            · rw [hr]
          · exact ih st'' (ex ++ [name]) (att ++ [name]) (k + 1) out hout

theorem linSleeps_succ (delay : ℚ) (s n : Nat) :
    linSleeps delay s (n + 1) = delay * (s : ℚ) :: linSleeps delay (s + 1) n := by
  simp [linSleeps, List.range'_succ]

theorem retryGo_attempts_le (maxR : Nat) (delay : ℚ) (beh : Nat → AttemptBehavior) :
    ∀ (rem a : Nat) (le : String),
      (retryGo maxR delay beh a rem le).attempts ≤ a + rem := by
  intro rem
  induction rem with
  | zero => intro a le; simp [retryGo]
  | succ m ih =>
      intro a le
      simp only [retryGo]
      rcases hb : beh a with r | msg <;> dsimp only
      · by_cases hrs : r.is_success = true
        · rw [if_pos hrs]
          dsimp only
          omega
        · simp only [Bool.not_eq_true] at hrs
          have h1 := ih (a + 1) (optStr r.error_message)
          rw [if_neg (by simp [hrs])]
          split_ifs <;> first
            | omega
            | (dsimp only; omega)
      · have h1 := ih (a + 1) msg
        split_ifs <;> first
          | omega
          | (dsimp only; omega)

theorem retryGo_allfail (maxR : Nat) (delay : ℚ) (beh : Nat → AttemptBehavior)
    (hfail : ∀ i, i < maxR → attemptFails (beh i) = true) :
    ∀ (rem a : Nat) (le : String), a + rem = maxR → 1 ≤ rem →
      retryGo maxR delay beh a rem le =
        ⟨{ success := false,
           error_message := some (retryFailMsg maxR (attemptErrStr (beh (maxR - 1)))) },
         maxR, linSleeps delay (a + 1) (rem - 1)⟩ := by
  intro rem
  induction rem with
  | zero => intro a le h h1; omega
  | succ m ih =>
      intro a le hsum _
      have hfa : attemptFails (beh a) = true := hfail a (by omega)
      simp only [retryGo]
      rcases hb : beh a with r | msg <;> dsimp only
      · have hrs : r.is_success = false := by
          rw [hb] at hfa
          simpa [attemptFails] using hfa
        rw [if_neg (by simp [hrs])]
        cases m with
        | zero =>
            have hlt : ¬ (a + 1 < maxR) := by omega
            have hm : maxR - 1 = a := by omega
            have hm2 : maxR = a + 1 := by omega
            rw [if_neg hlt]
            simp [retryGo, linSleeps, hm, hb, attemptErrStr, hm2]
        | succ m' =>
            have hlt : a + 1 < maxR := by omega
            rw [if_pos hlt, ih (a + 1) (optStr r.error_message) (by omega) (by omega)]
            rw [show m' + 1 + 1 - 1 = m' + 1 by omega, linSleeps_succ]
            simp
      · cases m with
        | zero =>
            have hlt : ¬ (a + 1 < maxR) := by omega
            have hm : maxR - 1 = a := by omega
            have hm2 : maxR = a + 1 := by omega
            rw [if_neg hlt]
            simp [retryGo, linSleeps, hm, hb, attemptErrStr, hm2]
        | succ m' =>
            have hlt : a + 1 < maxR := by omega
            rw [if_pos hlt, ih (a + 1) msg (by omega) (by omega)]
            rw [show m' + 1 + 1 - 1 = m' + 1 by omega, linSleeps_succ]
            simp

theorem retryGo_success (maxR : Nat) (delay : ℚ) (beh : Nat → AttemptBehavior)
    (k : Nat) (r : GenerationResult) (hk : k < maxR)
    (hfails : ∀ i, i < k → attemptFails (beh i) = true)
    (hbk : beh k = AttemptBehavior.returns r) (hrs : r.is_success = true) :
    ∀ (rem a : Nat) (le : String), a + rem = maxR → a ≤ k →
      retryGo maxR delay beh a rem le = ⟨r, k + 1, linSleeps delay (a + 1) (k - a)⟩ := by
  intro rem
  induction rem with
  | zero => intro a le hsum hak; omega
  | succ m ih =>
      intro a le hsum hak
      by_cases hka : a = k
      · subst hka
        simp only [retryGo, hbk]
        simp [hrs, linSleeps]
      · have hlt : a < k := by omega
        have hfa := hfails a hlt
        have hlt2 : a + 1 < maxR := by omega
        simp only [retryGo]
        rcases hb : beh a with rr | msg <;> dsimp only
        · have hrr : rr.is_success = false := by
            rw [hb] at hfa
            simpa [attemptFails] using hfa
          rw [if_neg (by simp [hrr]), if_pos hlt2,
            ih (a + 1) (optStr rr.error_message) (by omega) (by omega)]
          rw [show k - a = (k - (a + 1)) + 1 by omega, linSleeps_succ]
          simp
        · rw [if_pos hlt2, ih (a + 1) msg (by omega) (by omega)]
          rw [show k - a = (k - (a + 1)) + 1 by omega, linSleeps_succ]
          simp

/-- C3: generate_with_retry invokes the adapter at most max_retries times
(3 by default); after the k-th failed attempt, for every 1-based k strictly
below max_retries, it sleeps exactly retry_delay * k (linear), and it never
sleeps after the final attempt or after a success; when every attempt fails
(returned failure or raised) it returns a failure result whose message
states the retry count and the last underlying error, and no adapter
exception escapes (the raising behaviours are handled like any failure). -/
theorem retry_policy_spec (cfg : ProviderConfig) (beh : Nat → AttemptBehavior) :
    (generate_with_retry cfg beh).attempts ≤ cfg.max_retries ∧
    ((∀ i, i < cfg.max_retries → attemptFails (beh i) = true) →
      (generate_with_retry cfg beh).attempts = cfg.max_retries ∧
      (generate_with_retry cfg beh).result.success = false ∧
      (generate_with_retry cfg beh).result.data = none ∧
      (generate_with_retry cfg beh).result.error_message =
        some (retryFailMsg cfg.max_retries
          (if cfg.max_retries = 0 then "None"
           else attemptErrStr (beh (cfg.max_retries - 1)))) ∧
      (generate_with_retry cfg beh).sleeps =
        linSleeps cfg.retry_delay 1 (cfg.max_retries - 1)) ∧
    (∀ k r, k < cfg.max_retries → (∀ i, i < k → attemptFails (beh i) = true) →
      beh k = AttemptBehavior.returns r → r.is_success = true →
      (generate_with_retry cfg beh).result = r ∧
      (generate_with_retry cfg beh).attempts = k + 1 ∧
      (generate_with_retry cfg beh).sleeps = linSleeps cfg.retry_delay 1 k) ∧
    (∀ n : String, ({ name := n } : ProviderConfig).max_retries = 3) := by
  refine ⟨?_, ?_, ?_, fun n => rfl⟩
  · have h := retryGo_attempts_le cfg.max_retries cfg.retry_delay beh cfg.max_retries 0 "None"
    simpa [generate_with_retry] using h
  · intro hall
    by_cases h0 : cfg.max_retries = 0
    · simp [generate_with_retry, h0, retryGo, linSleeps]
    · rw [generate_with_retry,
        retryGo_allfail cfg.max_retries cfg.retry_delay beh hall cfg.max_retries 0 "None"
          (by omega) (by omega)]
      simp [h0]
  · intro k r hk hf hbk hrs
    rw [generate_with_retry,
      retryGo_success cfg.max_retries cfg.retry_delay beh k r hk hf hbk hrs
        cfg.max_retries 0 "None" (by omega) (by omega)]
    simp

/-- C3 witness: a default configuration with an always-raising adapter
makes 3 attempts, reports the last error, and sleeps 1 then 2 seconds;
an adapter succeeding on the second attempt stops after 2 attempts with a
single sleep. -/
theorem retry_policy_spec_witness :
    ((generate_with_retry cfgDef behBoomN).attempts = cfgDef.max_retries ∧
     (generate_with_retry cfgDef behBoomN).result.success = false ∧
     (generate_with_retry cfgDef behBoomN).result.data = none ∧
     (generate_with_retry cfgDef behBoomN).result.error_message =
       some (retryFailMsg cfgDef.max_retries
         (if cfgDef.max_retries = 0 then "None"
          else attemptErrStr (behBoomN (cfgDef.max_retries - 1)))) ∧
     (generate_with_retry cfgDef behBoomN).sleeps =
       linSleeps cfgDef.retry_delay 1 (cfgDef.max_retries - 1)) ∧
    ((generate_with_retry cfgDef behOkAt1).result = okResult ∧
     (generate_with_retry cfgDef behOkAt1).attempts = 1 + 1 ∧
     (generate_with_retry cfgDef behOkAt1).sleeps = linSleeps cfgDef.retry_delay 1 1) :=
  ⟨(retry_policy_spec cfgDef behBoomN).2.1 (by decide),
   (retry_policy_spec cfgDef behOkAt1).2.2.1 1 okResult (by decide) (by decide)
     (by decide) (by decide)⟩

/-- C4: preprocess_params clamps an excessive image count down to the
capability maximum and fills a missing size with the first supported
size. -/
theorem preprocess_clamp_and_default (cap : ProviderCapabilities)
    (p : GenerationParams) :
    (p.num_images > cap.max_images_per_request →
      (preprocess_params cap p).num_images = cap.max_images_per_request) ∧
    (p.size = none → cap.supported_sizes ≠ [] →
      (preprocess_params cap p).size = some (cap.supported_sizes.getD 0 ⟨0, 0⟩)) := by
  constructor
  · intro h
    simp only [preprocess_params]
    by_cases h1 : (p.size.isNone && !cap.supported_sizes.isEmpty) = true
    · rw [if_pos h1, if_pos (by dsimp only; exact h)]
    · rw [if_neg h1, if_pos h]
  · intro hs hne
    rcases hcs : cap.supported_sizes with _ | ⟨z, zs⟩
    · exact absurd hcs hne
    · simp only [preprocess_params]
      have hc1 : (p.size.isNone && !cap.supported_sizes.isEmpty) = true := by
        simp [hs, hcs]
      rw [if_pos hc1]
      by_cases h2 : ({ p with size := cap.supported_sizes.head? } :
          GenerationParams).num_images > cap.max_images_per_request
      · rw [if_pos h2]
        simp [hcs]
      · rw [if_neg h2]
        simp [hcs]

/-- C4 witness at a concrete request asking 5 images of a provider capped
at 2 with supported size 512x512. -/
theorem preprocess_clamp_and_default_witness :
    (preprocess_params capW paramsFive).num_images = capW.max_images_per_request ∧
    (preprocess_params capW paramsFive).size = some (capW.supported_sizes.getD 0 ⟨0, 0⟩) :=
  ⟨(preprocess_clamp_and_default capW paramsFive).1 (by decide),
   (preprocess_clamp_and_default capW paramsFive).2 rfl (by decide)⟩

/-- C5: under round_robin with enabled providers A, B, C (all registered,
none excluded) and the cursor at 0, four successive Selector calls yield
A, B, C, A: the cursor persists across the calls and wraps at the list
length. -/
theorem round_robin_cycle :
    rrPick stABC = some "A" ∧ rrPick (rrNext stABC) = some "B" ∧
    rrPick (rrNext (rrNext stABC)) = some "C" ∧
    rrPick (rrNext (rrNext (rrNext stABC))) = some "A" := by
  decide

theorem c6Step_props (st : ManagerState) (lat : ℚ)
    (hp : st.providers.contains "A" = true) (he : st.providerEnabled "A" = true) :
    (c6Step lat st).provider_stats "A" =
      { total_requests := (st.provider_stats "A").total_requests + 1,
        successful_requests := (st.provider_stats "A").successful_requests + 1,
        failed_requests := (st.provider_stats "A").failed_requests,
        avg_response_time := ((st.provider_stats "A").avg_response_time *
            ((((st.provider_stats "A").total_requests + 1 : Nat) : ℚ) - 1) + lat) /
          (((st.provider_stats "A").total_requests + 1 : Nat) : ℚ),
        last_used := some lat,
        health_status := "healthy" } ∧
    (c6Step lat st).providers = st.providers ∧
    (c6Step lat st).providerEnabled = st.providerEnabled := by
  simp only [c6Step, outStateD, generate_image, genWithProvider, behAllOk, hp, he,
    GenerationResult.is_success, okResult, Option.getD]
  norm_num

/-- C6: from fresh statistics, three successful calls routed to provider A
with latencies 1, 2 and 3 seconds leave avg_response_time exactly 2; and in
general every attempt that returns a result increments the total and
recomputes the rolling average as (avg * (n - 1) + sample) / n with n the
new total. -/
theorem rolling_average_example :
    ((c6Step 3 (c6Step 2 (c6Step 1 stOneA))).provider_stats "A").avg_response_time = 2 ∧
    ((c6Step 3 (c6Step 2 (c6Step 1 stOneA))).provider_stats "A").total_requests = 3 ∧
    ((c6Step 3 (c6Step 2 (c6Step 1 stOneA))).provider_stats "A").successful_requests = 3 ∧
    (∀ (st : ManagerState) (name : String) (rt endT : String → ℚ)
        (r : GenerationResult),
      ((genWithProvider (fun _ => AttemptBehavior.returns r) rt endT st name).2.provider_stats
          name).total_requests = (st.provider_stats name).total_requests + 1 ∧
      ((genWithProvider (fun _ => AttemptBehavior.returns r) rt endT st name).2.provider_stats
          name).avg_response_time =
        ((st.provider_stats name).avg_response_time *
            ((((st.provider_stats name).total_requests + 1 : Nat) : ℚ) - 1) + rt name) /
          (((st.provider_stats name).total_requests + 1 : Nat) : ℚ)) := by
  obtain ⟨h1s, h1p, h1e⟩ := c6Step_props stOneA 1 (by decide) (by decide)
  obtain ⟨h2s, h2p, h2e⟩ := c6Step_props (c6Step 1 stOneA) 2
    (by rw [h1p]; decide) (by rw [h1e]; decide)
  obtain ⟨h3s, h3p, h3e⟩ := c6Step_props (c6Step 2 (c6Step 1 stOneA)) 3
    (by rw [h2p, h1p]; decide) (by rw [h2e, h1e]; decide)
  rw [h3s, h2s, h1s]
  refine ⟨?_, ?_, ?_, ?_⟩
  · show ((((stOneA.provider_stats "A").avg_response_time * _ + 1) / _ * _ + 2) / _ * _ + 3) / _ = 2
    norm_num [stOneA, initStats]
  · norm_num [stOneA, initStats]
  · norm_num [stOneA, initStats]
  · intro st name rt endT r
    simp only [genWithProvider]
    split_ifs <;> simp_all

/-- C1: every generate_image call on a consistent manager state terminates
(the selection loop never exhausts the fuel bound of one more than the
enabled count), the adapters attempted for the request are pairwise
distinct, and their number, counting an explicitly requested provider that
was actually invoked, never exceeds the number of enabled providers at the
time of the call. -/
theorem fallback_attempts_bounded (st : ManagerState) (hwf : WFState st)
    (beh : String → AttemptBehavior) (rt endT : String → ℚ) (rand : Nat → Nat)
    (params : GenerationParams) (pname : Option String) (ufb : Option Bool) :
    ∃ out, generate_image beh rt endT rand st params pname ufb = some out ∧
      out.attempted.Nodup ∧
      out.attempted.length ≤ st.enabled_providers.length := by
  cases pname with
  | none =>
      have hs := genLoop_isSome beh rt endT rand (ufb.getD st.fallback_enabled)
        (st.enabled_providers.length + 1) st [] [] 0 (by simp) (by omega)
      obtain ⟨out, hout⟩ := Option.isSome_iff_exists.mp hs
      have hprops := genLoop_attempted beh rt endT rand (ufb.getD st.fallback_enabled)
        (st.enabled_providers.length + 1) st [] [] 0 out hout (by simp) (by simp)
        (by simp)
      refine ⟨out, ?_, hprops.1, nodup_sub_length_le hprops.1 hprops.2⟩
      simpa [generate_image] using hout
  | some name =>
      by_cases hcond : (st.providers.contains name && st.providerEnabled name) = true
      · have hcm : name ∈ st.providers ∧ st.providerEnabled name = true := by
          simpa using hcond
        have hnen : name ∈ st.enabled_providers := hwf.2 name hcm.1 hcm.2
        have hLpos : 1 ≤ st.enabled_providers.length := by
          have h := List.length_pos.mpr (List.ne_nil_of_mem hnen)
          omega
        rcases hgen : genWithProvider beh rt endT st name with ⟨r, st1⟩
        have hen1 : st1.enabled_providers = st.enabled_providers := by
          have h := genWith_snd_enabled beh rt endT st name
          rw [hgen] at h
          exact h
        by_cases hret : (r.is_success || !(ufb.getD st.fallback_enabled)) = true
        · refine ⟨⟨r, st1, [name], OutcomeTag.explicitDone⟩, ?_, by simp,
            by simpa using hLpos⟩
          simp only [generate_image, hgen]
          rw [if_pos hcond, if_pos hret]
        · have hs := genLoop_isSome beh rt endT rand (ufb.getD st.fallback_enabled)
            (st.enabled_providers.length + 1) st1 [name] [name] 0
            (by rw [hen1]; simp) (by omega)
          obtain ⟨out, hout⟩ := Option.isSome_iff_exists.mp hs
          have hprops := genLoop_attempted beh rt endT rand
            (ufb.getD st.fallback_enabled) (st.enabled_providers.length + 1)
            st1 [name] [name] 0 out hout (by simp) (by simp)
            (by simp [hen1, hnen])
          rw [hen1] at hprops
          refine ⟨out, ?_, hprops.1, nodup_sub_length_le hprops.1 hprops.2⟩
          simp only [generate_image, hgen]
          rw [if_pos hcond, if_neg hret]
          exact hout
      · by_cases hf : st.providers.contains name = true
        · refine ⟨⟨disabledResult name, st, [], OutcomeTag.disabledProv⟩,
            ?_, by simp, by simp⟩
          simp only [generate_image]
          rw [if_neg hcond, if_neg (by simpa using hf)]
        · refine ⟨⟨notFoundResult name, st, [], OutcomeTag.notFound⟩,
            ?_, by simp, by simp⟩
          simp only [generate_image]
          rw [if_neg hcond, if_pos (by simp_all)]

/-- C1 witness: a plain call on the two-provider manager whose adapters all
fail, with the consistency hypothesis checked on the concrete state. -/
theorem fallback_attempts_bounded_witness :
    ∃ out, generate_image behAllBoom timeZero timeZero randZero stAB paramsW
        none none = some out ∧
      out.attempted.Nodup ∧
      out.attempted.length ≤ stAB.enabled_providers.length :=
  fallback_attempts_bounded stAB (by decide) behAllBoom timeZero timeZero
    randZero paramsW none none

/-- C2 (amended): when the selection loop of generate_image terminates
through the in-loop exhaustion check, at least one adapter was attempted
and the failure message is 所有Provider都生成失败，最后错误: followed by the
last attempted adapter's error; when the loop terminates because the
Selector found no candidate, the failure message is the fixed
没有可用的Provider string regardless of whether any adapter, for instance
the explicitly requested one, had already been attempted. -/
theorem exhaustion_messages (beh : String → AttemptBehavior) (rt endT : String → ℚ)
    (rand : Nat → Nat) (st : ManagerState) (params : GenerationParams)
    (pname : Option String) (ufb : Option Bool) (out : GenOutcome)
    (hout : generate_image beh rt endT rand st params pname ufb = some out) :
    (out.tag = OutcomeTag.noProvider →
      out.result.success = false ∧
      out.result.error_message = some "没有可用的Provider") ∧
    (out.tag = OutcomeTag.exhausted →
      out.attempted ≠ [] ∧
      ∃ last, out.attempted.getLast? = some last ∧
        out.result.error_message = some ("所有Provider都生成失败，最后错误: " ++
          optStr (attemptResultOf beh last).error_message)) := by
  have hloop : ∀ (fuel : Nat) (st0 : ManagerState) (ex att : List String) (k : Nat),
      genLoop beh rt endT rand (ufb.getD st.fallback_enabled) fuel st0 ex att k =
        some out →
      (out.tag = OutcomeTag.noProvider →
        out.result.success = false ∧
        out.result.error_message = some "没有可用的Provider") ∧
      (out.tag = OutcomeTag.exhausted →
        out.attempted ≠ [] ∧
        ∃ last, out.attempted.getLast? = some last ∧
          out.result.error_message = some ("所有Provider都生成失败，最后错误: " ++
            optStr (attemptResultOf beh last).error_message)) := by
    intro fuel st0 ex att k h
    have ht := genLoop_tags beh rt endT rand (ufb.getD st.fallback_enabled)
      fuel st0 ex att k out h
    constructor
    · intro htag
      rw [ht.1 htag]
      exact ⟨rfl, rfl⟩
    · intro htag
      obtain ⟨hne, last, hl, hres⟩ := ht.2 htag
      exact ⟨hne, last, hl, by rw [hres]; rfl⟩
  cases pname with
  | none =>
      apply hloop (st.enabled_providers.length + 1) st [] [] 0
      simpa [generate_image] using hout
  | some name =>
      by_cases hcond : (st.providers.contains name && st.providerEnabled name) = true
      · rcases hgen : genWithProvider beh rt endT st name with ⟨r, st1⟩
        by_cases hret : (r.is_success || !(ufb.getD st.fallback_enabled)) = true
        · have hx : generate_image beh rt endT rand st params (some name) ufb =
              some ⟨r, st1, [name], OutcomeTag.explicitDone⟩ := by
            simp only [generate_image, hgen]
            rw [if_pos hcond, if_pos hret]
          rw [hout] at hx
          obtain rfl := Option.some.inj hx
          exact ⟨fun h => by simp at h, fun h => by simp at h⟩
        · apply hloop (st.enabled_providers.length + 1) st1 [name] [name] 0
          have hx : generate_image beh rt endT rand st params (some name) ufb =
              genLoop beh rt endT rand (ufb.getD st.fallback_enabled)
                (st.enabled_providers.length + 1) st1 [name] [name] 0 := by
            simp only [generate_image, hgen]
            rw [if_pos hcond, if_neg hret]
          exact hx.symm.trans hout
      · by_cases hf : st.providers.contains name = true
        · have hx : generate_image beh rt endT rand st params (some name) ufb =
              some ⟨disabledResult name, st, [], OutcomeTag.disabledProv⟩ := by
            simp only [generate_image]
            rw [if_neg hcond, if_neg (by simpa using hf)]
          rw [hout] at hx
          obtain rfl := Option.some.inj hx
          exact ⟨fun h => by simp at h, fun h => by simp at h⟩
        · have hx : generate_image beh rt endT rand st params (some name) ufb =
              some ⟨notFoundResult name, st, [], OutcomeTag.notFound⟩ := by
            simp only [generate_image]
            rw [if_neg hcond, if_pos (by simp_all)]
          rw [hout] at hx
          obtain rfl := Option.some.inj hx
          exact ⟨fun h => by simp at h, fun h => by simp at h⟩

/-- C2 witness: the no-candidate branch at the one-provider manager after a
failed explicit attempt, and the exhaustion branch on the two-provider
manager with both adapters failing. -/
theorem exhaustion_messages_witness :
    (oneAFailOut.result.success = false ∧
     oneAFailOut.result.error_message = some "没有可用的Provider") ∧
    (abFailOut.attempted ≠ [] ∧
     ∃ last, abFailOut.attempted.getLast? = some last ∧
       abFailOut.result.error_message = some ("所有Provider都生成失败，最后错误: " ++
         optStr (attemptResultOf behAllBoom last).error_message)) :=
  ⟨(exhaustion_messages behAllBoom timeZero timeZero randZero stOneA paramsW
      (some "A") none oneAFailOut rfl).1 (by decide),
   (exhaustion_messages behAllBoom timeZero timeZero randZero stAB paramsW
      none none abFailOut rfl).2 (by decide)⟩

/-- C2 counterexample: requesting the only enabled provider A explicitly,
with A failing and fallback enabled, makes one attempt, yet the returned
message is 没有可用的Provider and not the all-providers-exhausted one, so
the claimed equivalence between that message and zero attempts is false. -/
theorem no_provider_message_after_attempt :
    oneAFailOut.result.error_message = some "没有可用的Provider" ∧
    oneAFailOut.attempted = ["A"] ∧
    oneAFailOut.attempted ≠ [] := by
  refine ⟨by decide, by decide, by decide⟩

/-- C7 (amended): on the input of the example, volcano is not a registered
alias so the provider falls back to the default tongyi, the numeric size
pattern yields 1024x1024, the avoid trigger captures background as the
negative prompt, and the positive prompt is draw a cat: the word draw
survives because the trigger-word table holds only Chinese verbs. -/
theorem volcano_example_parse :
    parseMessageSync "@volcano draw a cat 1024x1024 avoid background" ["avoid"]
        "tongyi" =
      { prompt := "draw a cat", negative_prompt := "background",
        provider_name := some "tongyi", size := some ⟨1024, 1024⟩, style := none,
        count := 1, seed := none, quality := none,
        raw_message := "@volcano draw a cat 1024x1024 avoid background" } := by
  decide

/-- C7 counterexample: at the claimed input the extractor does not return
provider volcengine, nor the positive prompt a cat. -/
theorem volcano_example_claim_false :
    (parseMessageSync "@volcano draw a cat 1024x1024 avoid background" ["avoid"]
        "tongyi").provider_name ≠ some "volcengine" ∧
    (parseMessageSync "@volcano draw a cat 1024x1024 avoid background" ["avoid"]
        "tongyi").prompt ≠ "a cat" := by
  decide

/-- C8 (amended): size patterns are tried in a fixed priority order and the
first match wins, so on the example input the landscape preset, tried
before the 4k pattern, yields 1792x1024, and after both size spans are
stripped the positive prompt is draw a. -/
theorem landscape_4k_parse :
    parseMessageSync "draw a landscape 4k" [] "tongyi" =
      { prompt := "draw a", negative_prompt := "",
        provider_name := some "tongyi", size := some ⟨1792, 1024⟩, style := none,
        count := 1, seed := none, quality := none,
        raw_message := "draw a landscape 4k" } := by
  decide

/-- C8 counterexample: at the claimed input the extracted size is not
2048x2048 and the positive prompt is not a landscape. -/
theorem landscape_4k_claim_false :
    (parseMessageSync "draw a landscape 4k" [] "tongyi").size ≠ some ⟨2048, 2048⟩ ∧
    (parseMessageSync "draw a landscape 4k" [] "tongyi").prompt ≠ "a landscape" := by
  decide

theorem negSplit_nil (p : List Char) :
    ∀ (kws : List String),
      (∀ kw ∈ kws, findAllM (negKwM kw.data) (p.length + 1) p = []) →
      negSplit kws p = (p, []) := by
  intro kws
  induction kws with
  | nil => intro _; rfl
  | cons kw rest ih =>
      intro hall
      have h1 : negOneKw kw.data (p, []) = (p, []) := by
        simp [negOneKw, hall kw (by simp)]
      simp only [negSplit, List.foldl_cons] at *
      rw [h1]
      exact ih (fun kw2 hm => hall kw2 (by simp [hm]))

/-- C9 (amended): on any prompt that carries no residual provider, size,
style, count, seed, quality, trigger or negative-trigger token and is
already in cleaned form, re-running the extractor finds no further fields:
every field comes back at its default (the provider at the caller default)
and the prompt is returned unchanged. -/
theorem extractor_idempotent_on_clean (p : String) (negKws : List String)
    (d : String) (h : NoResidualTokens p.data negKws) :
    parseMessageSync p negKws d =
      { prompt := p, negative_prompt := "", provider_name := some d,
        size := none, style := none, count := 1, seed := none, quality := none,
        raw_message := p } := by
  obtain ⟨h1, h2, h3, h4, h5, h6, h7, h8, h9, h10, h11, h12, h13, h14⟩ := h
  have hchain : stripTriggerWords (stripQualityKeywords (stripCounts
      (stripStyleKeywords (stripSizes (stripAtTags p.data))))) = p.data := by
    rw [h7, h8, h9, h10, h11, h12]
  have hprompts : extractPrompts p.data negKws = (p.data, []) := by
    simp only [extractPrompts]
    rw [hchain, negSplit_nil p.data negKws h13]
    simp [joinCommaSp, h14]
  simp only [parseMessageSync, hprompts, h1, h2, h3, h4, h5, h6]
  rfl

/-- C9 witness at the already-cleaned prompt a cat. -/
theorem extractor_idempotent_on_clean_witness :
    parseMessageSync "a cat" ["avoid"] "tongyi" =
      { prompt := "a cat", negative_prompt := "", provider_name := some "tongyi",
        size := none, style := none, count := 1, seed := none, quality := none,
        raw_message := "a cat" } :=
  extractor_idempotent_on_clean "a cat" ["avoid"] "tongyi" (by decide)

/-- C9 counterexample: seed tokens are never stripped from the prompt, so
the cleaned prompt of the input cat seed 42 still contains its seed token
and re-running the extractor on it extracts seed 42 again instead of
leaving every field at its default. -/
theorem extractor_not_idempotent_on_seed :
    (parseMessageSync "cat seed 42" [] "tongyi").prompt = "cat seed 42" ∧
    (parseMessageSync (parseMessageSync "cat seed 42" [] "tongyi").prompt []
        "tongyi").seed = some 42 ∧
    (parseMessageSync (parseMessageSync "cat seed 42" [] "tongyi").prompt []
        "tongyi").seed ≠ none := by
  refine ⟨by decide, by decide, by decide⟩

/-- C10: a GenerationResult whose success flag is true but whose data is
None is treated as a failure throughout the core: is_success is false, the
retry loop keeps retrying such a result until exhaustion and returns a
failure, the usage tracker records it as a failed request with health
status unhealthy, and the fallback orchestrator excludes the provider that
returned it and moves on to the next candidate. -/
theorem success_without_data_is_failure (r : GenerationResult)
    (hs : r.success = true) (hd : r.data = none) :
    r.is_success = false ∧
    (∀ cfg : ProviderConfig,
      (generate_with_retry cfg (fun _ => AttemptBehavior.returns r)).attempts =
        cfg.max_retries ∧
      (generate_with_retry cfg (fun _ => AttemptBehavior.returns r)).result.success =
        false) ∧
    (∀ (st : ManagerState) (name : String) (beh : String → AttemptBehavior)
        (rt endT : String → ℚ), beh name = AttemptBehavior.returns r →
      ((genWithProvider beh rt endT st name).2.provider_stats name).failed_requests =
        (st.provider_stats name).failed_requests + 1 ∧
      ((genWithProvider beh rt endT st name).2.provider_stats name).health_status =
        "unhealthy") ∧
    (∃ out,
      generate_image (fun n => if n = "A" then AttemptBehavior.returns r
          else AttemptBehavior.returns okResult) timeZero timeZero randZero stAB
        paramsW none none = some out ∧
      out.attempted = ["A", "B"] ∧ out.result = okResult) := by
  have hfail : r.is_success = false := by
    simp [GenerationResult.is_success, hs, hd]
  have hns : ¬ (r.is_success = true) := by
    rw [hfail]
    exact Bool.false_ne_true
  refine ⟨hfail, ?_, ?_, ?_⟩
  · intro cfg
    by_cases h0 : cfg.max_retries = 0
    · simp [generate_with_retry, h0, retryGo]
    · have hall : ∀ i, i < cfg.max_retries →
          attemptFails ((fun _ => AttemptBehavior.returns r) i) = true := by
        intro i _
        simp [attemptFails, hfail]
      rw [generate_with_retry,
        retryGo_allfail cfg.max_retries cfg.retry_delay _ hall cfg.max_retries 0
          "None" (by omega) (by omega)]
      exact ⟨rfl, rfl⟩
  · intro st name beh rt endT hb
    simp only [genWithProvider, hb]
    rw [if_neg hns]
    constructor <;> simp
  · obtain ⟨su, da, em, rty, md⟩ := r
    dsimp only at hs hd
    subst hs
    subst hd
    exact ⟨⟨okResult,
      (genWithProvider (behANoData em rty md) timeZero timeZero
        (genWithProvider (behANoData em rty md) timeZero timeZero stAB "A").2
        "B").2,
      ["A", "B"], OutcomeTag.success⟩, rfl, rfl, rfl⟩

/-- C10 witness at the concrete success-true, data-None result, the default
retry configuration and the two-provider manager. -/
theorem success_without_data_is_failure_witness :
    succNoData.is_success = false ∧
    ((generate_with_retry cfgDef (fun _ => AttemptBehavior.returns succNoData)).attempts =
        cfgDef.max_retries ∧
     (generate_with_retry cfgDef
        (fun _ => AttemptBehavior.returns succNoData)).result.success = false) ∧
    (((genWithProvider (fun _ => AttemptBehavior.returns succNoData) timeZero
          timeZero stAB "A").2.provider_stats "A").failed_requests =
        (stAB.provider_stats "A").failed_requests + 1 ∧
     ((genWithProvider (fun _ => AttemptBehavior.returns succNoData) timeZero
          timeZero stAB "A").2.provider_stats "A").health_status = "unhealthy") ∧
    (∃ out,
      generate_image (fun n => if n = "A" then AttemptBehavior.returns succNoData
          else AttemptBehavior.returns okResult) timeZero timeZero randZero stAB
        paramsW none none = some out ∧
      out.attempted = ["A", "B"] ∧ out.result = okResult) := by
  obtain ⟨w1, w2, w3, w4⟩ := success_without_data_is_failure succNoData rfl rfl
  exact ⟨w1, w2 cfgDef, w3 stAB "A" _ timeZero timeZero rfl, w4⟩

end Txsc
